import Mathlib

/-
Verification of the financial projection core of home_calc_1 (src/app.py):
mortgage payment, closed-form amortization balance series, equity accumulation
series, scenario composition and the shared display maximum.  All arithmetic is
embedded over the rationals (exact arithmetic); period indices are naturals.
-/

namespace HomeCalc

/-- The boundary inputs of src/app.py (the widget values), gathered in one
immutable record.  The boundary constrains amounts and rates to be nonnegative
and the year counts to be at least 1. -/
structure Params where
  years_projection : Nat
  apt_value : ℚ
  re_growth_pct : ℚ
  monthly_rent : ℚ
  mortgage_amount : ℚ
  mortgage_years : Nat
  mortgage_rate_pct : ℚ
  initial_deposit : ℚ
  monthly_deposit : ℚ
  stock_return_pct : ℚ
deriving DecidableEq

/-- src/app.py lines 91-99: the periodic mortgage payment.
n_pay = years*12, r_m = pct/100/12; if amount > 0 and n_pay > 0 then the
annuity formula when r_m > 0, else straight-line amount/n_pay; otherwise 0. -/
def mortgage_payment (P pct : ℚ) (years : Nat) : ℚ :=
  let n : Nat := years * 12
  let r : ℚ := pct / 100 / 12
  if 0 < P ∧ 0 < n then
    if 0 < r then P * (r * (1 + r) ^ n) / ((1 + r) ^ n - 1)
    else P / (n : ℚ)
  else 0

/-- src/app.py lines 147-170, mortgage_balance_series, at one index k:
n = years*12, r = pct/100/12; zeros when P <= 0 or n <= 0; with m = min k n,
the linear paydown P*(1 - m/n) when r = 0, else the closed-form remaining
balance P*(1+r)^m - M*(((1+r)^m - 1)/r) with the annuity payment M; entries
with k > n are forced to 0 and (in the r != 0 branch) floored at 0. -/
def balance_at (P pct : ℚ) (years k : Nat) : ℚ :=
  let n : Nat := years * 12
  let r : ℚ := pct / 100 / 12
  if P ≤ 0 ∨ n = 0 then 0
  else
    let m : Nat := min k n
    if r = 0 then
      if n < k then 0 else P * (1 - (m : ℚ) / (n : ℚ))
    else
      let M : ℚ := P * (r * (1 + r) ^ n) / ((1 + r) ^ n - 1)
      if n < k then 0 else max 0 (P * (1 + r) ^ m - M * (((1 + r) ^ m - 1) / r))

/-- src/app.py line 147-170 vectorized: the balance series for k = 0..horizon. -/
def mortgage_balance_series (P pct : ℚ) (years horizon : Nat) : List ℚ :=
  (List.range (horizon + 1)).map (fun k => balance_at P pct years k)

/-- src/app.py lines 175-182, equity_series, at one index k:
r = pct/100/12; initial + contrib*k when r = 0, else
initial*(1+r)^k + contrib*((1+r)^k - 1)/r. -/
def equity_at (init contrib pct : ℚ) (k : Nat) : ℚ :=
  let r : ℚ := pct / 100 / 12
  if r = 0 then init + contrib * (k : ℚ)
  else init * (1 + r) ^ k + contrib * ((1 + r) ^ k - 1) / r

/-- src/app.py lines 175-182 vectorized: the equity series for k = 0..horizon. -/
def equity_series (init contrib pct : ℚ) (horizon : Nat) : List ℚ :=
  (List.range (horizon + 1)).map (equity_at init contrib pct)

/-- src/app.py line 144, one entry of the apartment-value growth series:
apt_value * (1 + re_growth/12)^k with re_growth = pct/100. -/
def growth_at (init pct : ℚ) (k : Nat) : ℚ :=
  init * (1 + pct / 100 / 12) ^ k

/-- src/app.py line 136: months = years_projection * 12. -/
def months (p : Params) : Nat := p.years_projection * 12

/-- src/app.py line 144: apartment value series of scenario 1. -/
def apt_series_s1 (p : Params) : List ℚ :=
  (List.range (months p + 1)).map (growth_at p.apt_value p.re_growth_pct)

/-- src/app.py line 172: mortgage debt series of scenario 1. -/
def debt_series_s1 (p : Params) : List ℚ :=
  mortgage_balance_series p.mortgage_amount p.mortgage_rate_pct p.mortgage_years (months p)

/-- src/app.py line 184: equity portfolio series of scenario 2, seeded by the
initial_deposit input. -/
def equity_series_s2 (p : Params) : List ℚ :=
  equity_series p.initial_deposit p.monthly_deposit p.stock_return_pct (months p)

/-- src/app.py line 101: net monthly figure, payment minus rent. -/
def net_monthly_after_rent (p : Params) : ℚ :=
  mortgage_payment p.mortgage_amount p.mortgage_rate_pct p.mortgage_years - p.monthly_rent

/-- np.max over a list of rationals (the series here are never empty; the
empty case is given the junk value 0). -/
def np_max : List ℚ → ℚ
  | [] => 0
  | x :: xs => xs.foldl max x

/-- src/app.py lines 187-188: shared display maximum, 1.05 times the maximum
over all three series when positive, else 1.0. -/
def y_max (p : Params) : ℚ :=
  let m : ℚ := max (max (np_max (apt_series_s1 p)) (np_max (debt_series_s1 p)))
      (np_max (equity_series_s2 p))
  if 0 < m then 21 / 20 * m else 1

/-- Modelled from the spec, section 4.1 (absent from src/app.py, which only has
the closed form): one step of the iterative balance recurrence.  interest =
balance*r; principal portion = max(0, payment - interest) + extra, clamped so
it never exceeds the current balance; the new balance subtracts the portion. -/
def iter_step (r payment extra b : ℚ) : ℚ :=
  b - min b (max 0 (payment - b * r) + extra)

/-- Modelled from the spec, section 4.1 (absent from src/app.py, which only has
the closed form): the iterative balance sequence, starting at the principal
(0 when principal <= 0) and applying iter_step with the native-term payment
every period. -/
def iter_balance (P pct : ℚ) (years : Nat) (extra : ℚ) : Nat → ℚ
  | 0 => if P ≤ 0 then 0 else P
  | k + 1 =>
      iter_step (pct / 100 / 12) (mortgage_payment P pct years) extra
        (iter_balance P pct years extra k)

/-- Modelled from the spec, section 4.3 (absent from src/app.py, which only has
the closed form): the accumulation recurrence balance[k] = balance[k-1]*(1+r) +
contribution, balance[0] = initial lump sum. -/
def equity_rec (init contrib pct : ℚ) : Nat → ℚ
  | 0 => init
  | k + 1 => equity_rec init contrib pct k * (1 + pct / 100 / 12) + contrib

/-- mortgage_payment with every division site guarded: returns none exactly
when the executed branch of src/app.py lines 93-99 would divide by zero. -/
def mortgage_paymentChecked (P pct : ℚ) (years : Nat) : Option ℚ :=
  let n : Nat := years * 12
  let r : ℚ := pct / 100 / 12
  if 0 < P ∧ 0 < n then
    if 0 < r then
      if (1 + r) ^ n - 1 = 0 then none
      else some (P * (r * (1 + r) ^ n) / ((1 + r) ^ n - 1))
    else
      if (n : ℚ) = 0 then none else some (P / (n : ℚ))
  else some 0

/-- balance_at with every division site guarded: returns none exactly when the
executed branch of src/app.py lines 147-170 would divide by zero (division by
n in the linear branch, by (1+r)^n - 1 and by r in the annuity branch). -/
def balance_atChecked (P pct : ℚ) (years k : Nat) : Option ℚ :=
  let n : Nat := years * 12
  let r : ℚ := pct / 100 / 12
  if P ≤ 0 ∨ n = 0 then some 0
  else
    let m : Nat := min k n
    if r = 0 then
      if (n : ℚ) = 0 then none
      else some (if n < k then 0 else P * (1 - (m : ℚ) / (n : ℚ)))
    else
      if (1 + r) ^ n - 1 = 0 ∨ r = 0 then none
      else
        let M : ℚ := P * (r * (1 + r) ^ n) / ((1 + r) ^ n - 1)
        some (if n < k then 0
          else max 0 (P * (1 + r) ^ m - M * (((1 + r) ^ m - 1) / r)))

/-- equity_at with every division site guarded: returns none exactly when the
executed branch of src/app.py lines 177-182 would divide by zero (the only
division, by r, sits on the branch where r is nonzero). -/
def equity_atChecked (init contrib pct : ℚ) (k : Nat) : Option ℚ :=
  let r : ℚ := pct / 100 / 12
  if r = 0 then some (init + contrib * (k : ℚ))
  else
    if r = 0 then none
    else some (init * (1 + r) ^ k + contrib * ((1 + r) ^ k - 1) / r)

/-- Modelled from the spec, section 4.4 (absent from src/app.py, where the
deposit is a raw widget input): the sell-and-invest initial lump sum,
max(0, referenceAssetValue - loanPrincipal). -/
def sell_invest_initial_lump (assetValue loanPrincipal : ℚ) : ℚ :=
  max 0 (assetValue - loanPrincipal)

/-! Basic lemmas about the embedded definitions. -/

lemma rate_pos_iff (pct : ℚ) : 0 < pct / 100 / 12 ↔ 0 < pct := by
  constructor <;> intro h <;> linarith

lemma rate_eq_zero_iff (pct : ℚ) : pct / 100 / 12 = 0 ↔ pct = 0 := by
  constructor <;> intro h <;> [linarith; simp [h]]

lemma equity_at_zero (init contrib pct : ℚ) : equity_at init contrib pct 0 = init := by
  unfold equity_at
  dsimp only
  split_ifs <;> simp

lemma equity_at_succ (init contrib pct : ℚ) (k : Nat) :
    equity_at init contrib pct (k + 1) =
      equity_at init contrib pct k * (1 + pct / 100 / 12) + contrib := by
  unfold equity_at
  dsimp only
  set r : ℚ := pct / 100 / 12 with hr
  split_ifs with h
  · rw [h]
    push_cast
    ring
  · field_simp
    ring

lemma mortgage_payment_nonneg (P pct : ℚ) (years : Nat) (hpct : 0 ≤ pct) :
    0 ≤ mortgage_payment P pct years := by
  unfold mortgage_payment
  dsimp only
  split_ifs with h hr
  · have h1 : (1 : ℚ) < (1 + pct / 100 / 12) ^ (years * 12) :=
      one_lt_pow₀ (by linarith) h.2.ne'
    exact div_nonneg (mul_nonneg h.1.le (mul_nonneg hr.le (zero_lt_one.trans h1).le))
      (by linarith)
  · exact div_nonneg h.1.le (Nat.cast_nonneg _)
  · exact le_refl 0

/-- Claim C1: the periodic mortgage payment is defined by cases on the inputs:
0 when principal is nonpositive, principal/n for zero periodic rate with
n = termYears*12, and otherwise the standard annuity formula with
r = annualRate/12 = pct/100/12. -/
theorem c1_payment_cases (P pct : ℚ) (years : Nat) (hy : 1 ≤ years) (hpct : 0 ≤ pct) :
    (P ≤ 0 → mortgage_payment P pct years = 0) ∧
    (0 < P → pct = 0 → mortgage_payment P pct years = P / ((years * 12 : Nat) : ℚ)) ∧
    (0 < P → 0 < pct →
      mortgage_payment P pct years =
        P * ((pct / 100 / 12) * (1 + pct / 100 / 12) ^ (years * 12)) /
          ((1 + pct / 100 / 12) ^ (years * 12) - 1)) := by
  refine ⟨?_, ?_, ?_⟩
  · intro hP
    unfold mortgage_payment
    rw [if_neg]
    rintro ⟨h1, -⟩
    exact absurd hP (not_le.mpr h1)
  · intro hP h0
    unfold mortgage_payment
    rw [if_pos ⟨hP, by positivity⟩, if_neg]
    simp [h0]
  · intro hP hr
    unfold mortgage_payment
    rw [if_pos ⟨hP, by positivity⟩, if_pos ((rate_pos_iff pct).mpr hr)]

/-- Witness for C1 at a concrete loan. -/
theorem c1_payment_cases_witness :
    (1 ≤ 1 ∧ (0 : ℚ) ≤ 0) ∧
      ((0 : ℚ) < 1200 → (0 : ℚ) = 0 → mortgage_payment 1200 0 1 = 1200 / ((1 * 12 : Nat) : ℚ)) := by
  exact ⟨⟨le_refl 1, le_refl 0⟩, (c1_payment_cases 1200 0 1 (le_refl 1) (le_refl 0)).2.1⟩

/-- Claim C7: at every index the closed-form accumulation series of
src/app.py equals the recurrence balance[k] = balance[k-1]*(1+r) + contrib
seeded with the initial lump sum, and with zero contribution it reduces to
pure compound growth. -/
theorem c7_equity_closed_form_eq_recurrence (init contrib pct : ℚ) (k : Nat) :
    equity_at init contrib pct k = equity_rec init contrib pct k ∧
    equity_at init 0 pct k = init * (1 + pct / 100 / 12) ^ k := by
  constructor
  · induction k with
    | zero => rw [equity_at_zero]; rfl
    | succ n ih => rw [equity_at_succ, ih]; rfl
  · unfold equity_at
    dsimp only
    split_ifs with h
    · rw [h]
      simp
    · field_simp

/-- Claim C10: two runs differing only in the monthly rent produce identical
apartment, debt and equity series and the same display maximum; rent enters
only the displayed net-monthly figure, payment minus rent. -/
theorem c10_rent_noninterference (p : Params) (rent : ℚ) :
    apt_series_s1 { p with monthly_rent := rent } = apt_series_s1 p ∧
    debt_series_s1 { p with monthly_rent := rent } = debt_series_s1 p ∧
    equity_series_s2 { p with monthly_rent := rent } = equity_series_s2 p ∧
    y_max { p with monthly_rent := rent } = y_max p ∧
    net_monthly_after_rent { p with monthly_rent := rent } =
      mortgage_payment p.mortgage_amount p.mortgage_rate_pct p.mortgage_years - rent := by
  exact ⟨rfl, rfl, rfl, rfl, rfl⟩

/-- A parameter set with the asset worth less than the loan principal: the
hypothetical sale proceeds net of payoff would be 0, but the widget-supplied
deposit of 200000 still seeds the series. -/
def c3_cex_params : Params :=
  { years_projection := 1, apt_value := 1000000, re_growth_pct := 3,
    monthly_rent := 4000, mortgage_amount := 1700000, mortgage_years := 15,
    mortgage_rate_pct := 11 / 2, initial_deposit := 200000, monthly_deposit := 6000,
    stock_return_pct := 0 }

lemma equity_series_head (init contrib pct : ℚ) (horizon : Nat) :
    (equity_series init contrib pct horizon).head? = some init := by
  rw [equity_series, List.range_succ_eq_map]
  simp [equity_at_zero]

/-- Counterexample to claim C3: the equity series does not start from
max(0, referenceAssetValue - loanPrincipal); with asset value 1000000 and
principal 1700000 that lump would be 0, yet the series starts at the
user-supplied deposit 200000. -/
theorem c3_counterexample :
    ¬ (equity_series_s2 c3_cex_params).head? =
      some (sell_invest_initial_lump c3_cex_params.apt_value c3_cex_params.mortgage_amount) := by
  have h1 : (equity_series_s2 c3_cex_params).head? = some 200000 := by
    rw [show equity_series_s2 c3_cex_params = equity_series 200000 6000 0 12 from rfl]
    exact equity_series_head _ _ _ _
  have h2 : sell_invest_initial_lump c3_cex_params.apt_value c3_cex_params.mortgage_amount
      = 0 := by
    rw [show c3_cex_params.apt_value = (1000000 : ℚ) from rfl,
      show c3_cex_params.mortgage_amount = (1700000 : ℚ) from rfl,
      sell_invest_initial_lump, max_eq_left (by norm_num)]
  rw [h1, h2]
  intro hc
  exact absurd (Option.some.inj hc) (by norm_num)

/-- Claim C3 as amended: the equity series of scenario 2 starts from the
user-supplied initial deposit, which is not derived from the asset value or
the loan principal; the spec formula max(0, assetValue - principal) gives
200000 and 0 on the two quoted examples, matching the default deposit only
for the default inputs. -/
theorem c3_amended_initial_lump (p : Params) :
    (equity_series_s2 p).head? = some p.initial_deposit ∧
    sell_invest_initial_lump 1900000 1700000 = 200000 ∧
    sell_invest_initial_lump 1000000 1700000 = 0 := by
  refine ⟨?_, ?_, ?_⟩
  · rw [equity_series_s2]
    exact equity_series_head _ _ _ _
  · rw [sell_invest_initial_lump, max_eq_right (by norm_num)]
    norm_num
  · rw [sell_invest_initial_lump, max_eq_left (by norm_num)]

/-- A parameter set with positive rent and a still-unpaid loan: the rent never
reaches the debt series. -/
def c4_cex_params : Params :=
  { years_projection := 1, apt_value := 0, re_growth_pct := 0,
    monthly_rent := 1000, mortgage_amount := 1200, mortgage_years := 1,
    mortgage_rate_pct := 0, initial_deposit := 0, monthly_deposit := 0,
    stock_return_pct := 0 }

/-- Counterexample to claim C4: with monthly rent 1000 > 0 the debt series is
not the amortization schedule accelerated by a rent-funded extra-principal
contribution (the iterative schedule of the spec with extra = rent): the code
ignores rent, so the series stays on the unaccelerated schedule. -/
theorem c4_counterexample :
    ¬ debt_series_s1 c4_cex_params =
      (List.range (months c4_cex_params + 1)).map
        (iter_balance c4_cex_params.mortgage_amount c4_cex_params.mortgage_rate_pct
          c4_cex_params.mortgage_years c4_cex_params.monthly_rent) := by
  intro h
  have h1 := congrArg (fun l : List ℚ => l[1]?) h
  have hL : balance_at 1200 0 1 1 = 1100 := by
    unfold balance_at
    norm_num
  have hM : mortgage_payment 1200 0 1 = 100 := by
    unfold mortgage_payment
    norm_num
  have hR : iter_balance 1200 0 1 1000 1 = 100 := by
    show iter_step (0 / 100 / 12) (mortgage_payment 1200 0 1) 1000
        (iter_balance 1200 0 1 1000 0) = 100
    rw [hM, show iter_balance 1200 0 1 1000 0 = 1200 from by norm_num [iter_balance],
      iter_step]
    norm_num [min_def, max_def]
  simp only [debt_series_s1, mortgage_balance_series, months,
    show c4_cex_params.years_projection = 1 from rfl,
    show c4_cex_params.mortgage_amount = (1200 : ℚ) from rfl,
    show c4_cex_params.mortgage_rate_pct = (0 : ℚ) from rfl,
    show c4_cex_params.mortgage_years = 1 from rfl,
    show c4_cex_params.monthly_rent = (1000 : ℚ) from rfl,
    List.getElem?_map] at h1
  rw [List.getElem?_range (by norm_num)] at h1
  simp only [Option.map_some'] at h1
  rw [hL, hR] at h1
  exact absurd (Option.some.inj h1) (by norm_num)

/-! The shared display maximum. -/

lemma foldl_max_le (xs : List ℚ) (a c : ℚ) (hxs : ∀ x ∈ xs, x ≤ c) (ha : a ≤ c) :
    xs.foldl max a ≤ c := by
  induction xs generalizing a with
  | nil => exact ha
  | cons x xs ih =>
      refine ih _ (fun y hy => hxs y (List.mem_cons_of_mem _ hy)) ?_
      exact max_le ha (hxs x (List.mem_cons_self _ _))

lemma le_foldl_max (xs : List ℚ) (a : ℚ) : a ≤ xs.foldl max a := by
  induction xs generalizing a with
  | nil => exact le_refl a
  | cons y ys ih => exact le_trans (le_max_left a y) (ih (max a y))

lemma np_max_eq_zero (l : List ℚ) (h : ∀ x ∈ l, x = 0) : np_max l = 0 := by
  cases l with
  | nil => rfl
  | cons x xs =>
      rw [np_max]
      have hx : x = 0 := h x (List.mem_cons_self _ _)
      refine le_antisymm ?_ (hx ▸ le_foldl_max xs x)
      exact foldl_max_le _ _ _ (fun y hy => le_of_eq (h y (List.mem_cons_of_mem _ hy)))
        (le_of_eq hx)

/-- Claim C8: the display maximum is 1.05 times the overall series maximum
when that maximum is positive and 1.0 otherwise; hence it dominates 1.05
times every individual series maximum, and equals 1.0 when every series is
all-zero. -/
theorem c8_display_max (p : Params) :
    y_max p = (if 0 < max (max (np_max (apt_series_s1 p)) (np_max (debt_series_s1 p)))
        (np_max (equity_series_s2 p))
      then 21 / 20 * max (max (np_max (apt_series_s1 p)) (np_max (debt_series_s1 p)))
        (np_max (equity_series_s2 p)) else 1) ∧
    21 / 20 * np_max (apt_series_s1 p) ≤ y_max p ∧
    21 / 20 * np_max (debt_series_s1 p) ≤ y_max p ∧
    21 / 20 * np_max (equity_series_s2 p) ≤ y_max p ∧
    ((∀ x ∈ apt_series_s1 p, x = 0) → (∀ x ∈ debt_series_s1 p, x = 0) →
      (∀ x ∈ equity_series_s2 p, x = 0) → y_max p = 1) := by
  set A := np_max (apt_series_s1 p) with hA
  set D := np_max (debt_series_s1 p) with hD
  set E := np_max (equity_series_s2 p) with hE
  have hyeq : y_max p = if 0 < max (max A D) E then 21 / 20 * max (max A D) E else 1 := rfl
  have hdom : ∀ c : ℚ, c ≤ max (max A D) E → 21 / 20 * c ≤ y_max p := by
    intro c hc
    rw [hyeq]
    split_ifs with hm
    · nlinarith
    · push_neg at hm
      nlinarith
  refine ⟨hyeq, ?_, ?_, ?_, ?_⟩
  · exact hdom A (le_trans (le_max_left A D) (le_max_left _ E))
  · exact hdom D (le_trans (le_max_right A D) (le_max_left _ E))
  · exact hdom E (le_max_right _ E)
  · intro h1 h2 h3
    rw [hyeq, hA, hD, hE, np_max_eq_zero _ h1, np_max_eq_zero _ h2, np_max_eq_zero _ h3]
    norm_num

/-- An all-zero parameter set used as the C8 witness input. -/
def zero_params : Params := Params.mk 1 0 0 0 0 1 0 0 0 0

/-- Witness for C8 on an all-zero parameter set. -/
theorem c8_display_max_witness :
    21 / 20 * np_max (apt_series_s1 zero_params) ≤ y_max zero_params ∧
      y_max zero_params = 1 := by
  have h1 : ∀ x ∈ apt_series_s1 zero_params, x = (0 : ℚ) := by
    intro x hx
    simp only [apt_series_s1] at hx
    obtain ⟨k, -, hk⟩ := List.mem_map.mp hx
    rw [← hk]
    show growth_at 0 0 k = 0
    rw [growth_at]
    ring
  have h2 : ∀ x ∈ debt_series_s1 zero_params, x = (0 : ℚ) := by
    intro x hx
    simp only [debt_series_s1, mortgage_balance_series] at hx
    obtain ⟨k, -, hk⟩ := List.mem_map.mp hx
    rw [← hk]
    show balance_at 0 0 1 k = 0
    unfold balance_at
    dsimp only
    rw [if_pos (Or.inl le_rfl)]
  have h3 : ∀ x ∈ equity_series_s2 zero_params, x = (0 : ℚ) := by
    intro x hx
    simp only [equity_series_s2, equity_series] at hx
    obtain ⟨k, -, hk⟩ := List.mem_map.mp hx
    rw [← hk]
    show equity_at 0 0 0 k = 0
    unfold equity_at
    dsimp only
    norm_num
  exact ⟨(c8_display_max _).2.1, (c8_display_max _).2.2.2.2 h1 h2 h3⟩

/-! Totality: no executed branch divides by zero. -/

/-- Claim C9: on nonnegative rates the guarded variants of the three core
formulas always return a value, equal to the unguarded one (no executed
division is by zero), and when the rate is zero the straight-line branch
governs: payment is principal/n and the accumulation is linear. -/
theorem c9_total_no_division_by_zero (P pct init contrib spct : ℚ) (years k j : Nat)
    (hpct : 0 ≤ pct) :
    mortgage_paymentChecked P pct years = some (mortgage_payment P pct years) ∧
    balance_atChecked P pct years k = some (balance_at P pct years k) ∧
    equity_atChecked init contrib spct j = some (equity_at init contrib spct j) ∧
    (pct = 0 → 0 < P → mortgage_payment P pct years = P / ((years * 12 : Nat) : ℚ)) ∧
    (pct = 0 → 0 < P → 1 ≤ years → k ≤ years * 12 →
      balance_at P pct years k = P * (1 - (k : ℚ) / ((years * 12 : Nat) : ℚ))) ∧
    (spct = 0 → equity_at init contrib spct j = init + contrib * (j : Nat)) := by
  refine ⟨?_, ?_, ?_, ?_, ?_, ?_⟩
  · unfold mortgage_paymentChecked mortgage_payment
    dsimp only
    by_cases h : 0 < P ∧ 0 < years * 12
    · rw [if_pos h, if_pos h]
      by_cases hr : 0 < pct / 100 / 12
      · have h1 : (1 : ℚ) < (1 + pct / 100 / 12) ^ (years * 12) :=
          one_lt_pow₀ (by linarith) h.2.ne'
        rw [if_pos hr, if_pos hr, if_neg (by intro hc; linarith)]
      · have h0 : (0 : ℚ) < ((years * 12 : Nat) : ℚ) := by exact_mod_cast h.2
        rw [if_neg hr, if_neg hr, if_neg (by intro hc; linarith)]
    · rw [if_neg h, if_neg h]
  · unfold balance_atChecked balance_at
    dsimp only
    by_cases h : P ≤ 0 ∨ years * 12 = 0
    · rw [if_pos h, if_pos h]
    · have hn : years * 12 ≠ 0 := (not_or.mp h).2
      rw [if_neg h, if_neg h]
      by_cases hr : pct / 100 / 12 = 0
      · rw [if_pos hr, if_pos hr, if_neg (show ¬((years * 12 : Nat) : ℚ) = 0 from by
          exact_mod_cast hn)]
      · have hrpos : 0 < pct / 100 / 12 := lt_of_le_of_ne (by linarith) (Ne.symm hr)
        have h1 : (1 : ℚ) < (1 + pct / 100 / 12) ^ (years * 12) :=
          one_lt_pow₀ (by linarith) hn
        rw [if_neg hr, if_neg hr, if_neg (by
          intro hc
          rcases hc with hc | hc
          · linarith
          · exact hr hc)]
  · unfold equity_atChecked equity_at
    dsimp only
    split_ifs <;> rfl
  · intro h0 hP
    unfold mortgage_payment
    dsimp only
    rcases Nat.eq_zero_or_pos (years * 12) with hn | hn
    · rw [if_neg (by simp [hn]), hn]
      simp
    · rw [if_pos ⟨hP, hn⟩, if_neg (by rw [h0]; norm_num)]
  · intro h0 hP hy hk
    cases h0
    unfold balance_at
    dsimp only
    rw [if_neg (not_or.mpr ⟨not_le.mpr hP, by omega⟩), if_pos (by norm_num),
      if_neg (not_lt.mpr hk), min_eq_left hk]
  · intro h0
    unfold equity_at
    dsimp only
    rw [if_pos (by rw [h0]; norm_num)]

/-- Witness for C9 at a concrete parameter set. -/
theorem c9_total_no_division_by_zero_witness :
    (0 : ℚ) ≤ 6 ∧
      mortgage_paymentChecked 1000 6 2 = some (mortgage_payment 1000 6 2) ∧
      equity_atChecked 10 5 0 4 = some (equity_at 10 5 0 4) := by
  refine ⟨by norm_num, ?_, ?_⟩
  · exact (c9_total_no_division_by_zero 1000 6 10 5 0 2 3 4 (by norm_num)).1
  · exact (c9_total_no_division_by_zero 1000 6 10 5 0 2 3 4 (by norm_num)).2.2.1

/-! The amortization closed form.  For 0 < P, 0 < pct the balance of
src/app.py at k <= n equals P*(q^n - q^k)/(q^n - 1) with q = 1 + pct/100/12
and n = years*12; this normal form drives claims C2, C5 and C6. -/

/-- The exact annuity remaining balance P*(q^n - q^k)/(q^n - 1). -/
def annuity_balance (P pct : ℚ) (years k : Nat) : ℚ :=
  P * ((1 + pct / 100 / 12) ^ (years * 12) - (1 + pct / 100 / 12) ^ k) /
    ((1 + pct / 100 / 12) ^ (years * 12) - 1)

lemma one_lt_qpow (pct : ℚ) (years : Nat) (hpct : 0 < pct) (hy : 1 ≤ years) :
    1 < (1 + pct / 100 / 12) ^ (years * 12) :=
  one_lt_pow₀ (by linarith) (by omega)

lemma payment_eq_annuity (P pct : ℚ) (years : Nat) (hP : 0 < P) (hpct : 0 < pct)
    (hy : 1 ≤ years) :
    mortgage_payment P pct years =
      P * ((pct / 100 / 12) * (1 + pct / 100 / 12) ^ (years * 12)) /
        ((1 + pct / 100 / 12) ^ (years * 12) - 1) := by
  unfold mortgage_payment
  dsimp only
  rw [if_pos ⟨hP, by omega⟩, if_pos ((rate_pos_iff pct).mpr hpct)]

lemma annuity_balance_zero (P pct : ℚ) (years : Nat) (hpct : 0 < pct) (hy : 1 ≤ years) :
    annuity_balance P pct years 0 = P := by
  unfold annuity_balance
  have hden : (0 : ℚ) < (1 + pct / 100 / 12) ^ (years * 12) - 1 := by
    linarith [one_lt_qpow pct years hpct hy]
  rw [pow_zero, mul_div_assoc, div_self hden.ne', mul_one]

lemma annuity_balance_term (P pct : ℚ) (years : Nat) :
    annuity_balance P pct years (years * 12) = 0 := by
  unfold annuity_balance
  simp

lemma annuity_balance_nonneg (P pct : ℚ) (years k : Nat) (hP : 0 < P) (hpct : 0 < pct)
    (hy : 1 ≤ years) (hk : k ≤ years * 12) :
    0 ≤ annuity_balance P pct years k := by
  unfold annuity_balance
  have hden : (0 : ℚ) < (1 + pct / 100 / 12) ^ (years * 12) - 1 := by
    linarith [one_lt_qpow pct years hpct hy]
  exact div_nonneg
    (mul_nonneg hP.le (sub_nonneg.mpr (pow_le_pow_right₀ (by linarith) hk))) hden.le

lemma annuity_balance_lt (P pct : ℚ) (years k l : Nat) (hP : 0 < P) (hpct : 0 < pct)
    (hy : 1 ≤ years) (hkl : k < l) :
    annuity_balance P pct years l < annuity_balance P pct years k := by
  unfold annuity_balance
  have hden : (0 : ℚ) < (1 + pct / 100 / 12) ^ (years * 12) - 1 := by
    linarith [one_lt_qpow pct years hpct hy]
  have hnum : (1 + pct / 100 / 12) ^ k < (1 + pct / 100 / 12) ^ l :=
    pow_lt_pow_right₀ (by linarith) hkl
  rw [div_lt_div_iff₀ hden hden]
  nlinarith [mul_pos (mul_pos hP (sub_pos.mpr hnum)) hden]

lemma annuity_balance_pos (P pct : ℚ) (years k : Nat) (hP : 0 < P) (hpct : 0 < pct)
    (hy : 1 ≤ years) (hk : k < years * 12) :
    0 < annuity_balance P pct years k := by
  have := annuity_balance_lt P pct years k (years * 12) hP hpct hy hk
  rw [annuity_balance_term] at this
  linarith

lemma balance_at_nonpos (P pct : ℚ) (years k : Nat) (hP : P ≤ 0) :
    balance_at P pct years k = 0 := by
  unfold balance_at
  dsimp only
  rw [if_pos (Or.inl hP)]

lemma balance_at_of_term_lt (P pct : ℚ) (years k : Nat) (h : years * 12 < k) :
    balance_at P pct years k = 0 := by
  unfold balance_at
  dsimp only
  split_ifs <;> first | rfl | exact absurd h (by assumption)

lemma balance_at_linear (P : ℚ) (years k : Nat) (hP : 0 < P) (hy : 1 ≤ years)
    (hk : k ≤ years * 12) :
    balance_at P 0 years k = P * (1 - (k : ℚ) / ((years * 12 : Nat) : ℚ)) := by
  unfold balance_at
  dsimp only
  rw [if_neg (not_or.mpr ⟨not_le.mpr hP, by omega⟩), if_pos (by norm_num),
    if_neg (not_lt.mpr hk), min_eq_left hk]

lemma annuity_closed_identity (P r X y : ℚ) (hr : r ≠ 0) (hX : X - 1 ≠ 0) :
    P * y - P * (r * X) / (X - 1) * ((y - 1) / r) = P * (X - y) / (X - 1) := by
  field_simp
  ring

lemma balance_at_eq_annuity (P pct : ℚ) (years k : Nat) (hP : 0 < P) (hpct : 0 < pct)
    (hy : 1 ≤ years) (hk : k ≤ years * 12) :
    balance_at P pct years k = annuity_balance P pct years k := by
  have hr : 0 < pct / 100 / 12 := (rate_pos_iff pct).mpr hpct
  have hden : (0 : ℚ) < (1 + pct / 100 / 12) ^ (years * 12) - 1 := by
    linarith [one_lt_qpow pct years hpct hy]
  unfold balance_at
  dsimp only
  rw [if_neg (not_or.mpr ⟨not_le.mpr hP, by omega⟩), if_neg hr.ne',
    if_neg (not_lt.mpr hk), min_eq_left hk]
  rw [annuity_closed_identity P (pct / 100 / 12) ((1 + pct / 100 / 12) ^ (years * 12))
    ((1 + pct / 100 / 12) ^ k) hr.ne' hden.ne']
  exact max_eq_right (annuity_balance_nonneg P pct years k hP hpct hy hk)

/-! The iterative recurrence of the spec, related to the closed form. -/

lemma iter_step_zero_balance (r payment extra : ℚ) (hext : 0 ≤ extra) :
    iter_step r payment extra 0 = 0 := by
  unfold iter_step
  have h1 : (0 : ℚ) ≤ max 0 (payment - 0 * r) + extra := add_nonneg (le_max_left _ _) hext
  rw [min_eq_left h1]
  ring

lemma iter_balance_absorb (P pct extra : ℚ) (years k0 : Nat) (hext : 0 ≤ extra)
    (h0 : iter_balance P pct years extra k0 = 0) :
    ∀ j, iter_balance P pct years extra (k0 + j) = 0 := by
  intro j
  induction j with
  | zero => exact h0
  | succ j ih =>
      show iter_step (pct / 100 / 12) (mortgage_payment P pct years) extra
          (iter_balance P pct years extra (k0 + j)) = 0
      rw [ih]
      exact iter_step_zero_balance _ _ _ hext

lemma iter_balance_nonpos (P pct extra : ℚ) (years : Nat) (hP : P ≤ 0) (hext : 0 ≤ extra) :
    ∀ k, iter_balance P pct years extra k = 0 := by
  intro k
  have h0 : iter_balance P pct years extra 0 = 0 := by
    show (if P ≤ 0 then 0 else P) = 0
    rw [if_pos hP]
  have := iter_balance_absorb P pct extra years 0 hext h0 k
  rwa [Nat.zero_add] at this

lemma iter_balance_linear (P : ℚ) (years : Nat) (hP : 0 < P) (hy : 1 ≤ years) :
    ∀ k, k ≤ years * 12 →
      iter_balance P 0 years 0 k = P * (1 - (k : ℚ) / ((years * 12 : Nat) : ℚ)) := by
  have hn : (0 : ℚ) < ((years * 12 : Nat) : ℚ) := by
    exact_mod_cast (by omega : 0 < years * 12)
  have hpay : mortgage_payment P 0 years = P / ((years * 12 : Nat) : ℚ) := by
    unfold mortgage_payment
    dsimp only
    rw [if_pos ⟨hP, by omega⟩, if_neg (by norm_num)]
  intro k
  induction k with
  | zero =>
      intro h0
      show (if P ≤ 0 then 0 else P) = _
      rw [if_neg (not_le.mpr hP)]
      simp
  | succ k ih =>
      intro hk1
      have hk : k ≤ years * 12 := by omega
      have hk1Q : ((k : ℚ) + 1) ≤ ((years * 12 : Nat) : ℚ) := by exact_mod_cast hk1
      show iter_step (0 / 100 / 12) (mortgage_payment P 0 years) 0
          (iter_balance P 0 years 0 k) = _
      rw [ih hk, hpay]
      unfold iter_step
      rw [show (0 : ℚ) / 100 / 12 = 0 from by norm_num, mul_zero, sub_zero, add_zero,
        max_eq_right (div_nonneg hP.le hn.le)]
      have hexpand : P * (1 - (k : ℚ) / ((years * 12 : Nat) : ℚ)) * ((years * 12 : Nat) : ℚ)
          = P * (((years * 12 : Nat) : ℚ) - (k : ℚ)) := by
        field_simp
      have hb : P / ((years * 12 : Nat) : ℚ) ≤ P * (1 - (k : ℚ) / ((years * 12 : Nat) : ℚ)) := by
        rw [div_le_iff hn, hexpand]
        nlinarith [mul_nonneg hP.le (show (0 : ℚ) ≤ ((years * 12 : Nat) : ℚ) - (k : ℚ) - 1 from
          by linarith)]
      rw [min_eq_right hb]
      push_cast
      field_simp
      ring

lemma annuity_step_sub_identity (P r X y : ℚ) (hX : X - 1 ≠ 0) :
    P * (r * X) / (X - 1) - P * (X - y) / (X - 1) * r = P * (r * y) / (X - 1) := by
  field_simp
  ring

lemma annuity_step_next_identity (P r X y : ℚ) (hX : X - 1 ≠ 0) :
    P * (X - y) / (X - 1) + P * (X - y) / (X - 1) * r - P * (r * X) / (X - 1) =
      P * (X - y * (1 + r)) / (X - 1) := by
  field_simp
  ring

lemma annuity_step (P pct : ℚ) (years k : Nat) (hP : 0 < P) (hpct : 0 < pct)
    (hy : 1 ≤ years) (hk1 : k + 1 ≤ years * 12) :
    iter_step (pct / 100 / 12) (mortgage_payment P pct years) 0
      (annuity_balance P pct years k) = annuity_balance P pct years (k + 1) := by
  have hr : 0 < pct / 100 / 12 := (rate_pos_iff pct).mpr hpct
  have hden : (0 : ℚ) < (1 + pct / 100 / 12) ^ (years * 12) - 1 := by
    linarith [one_lt_qpow pct years hpct hy]
  have hpay := payment_eq_annuity P pct years hP hpct hy
  have e1 : mortgage_payment P pct years -
      annuity_balance P pct years k * (pct / 100 / 12) =
      P * ((pct / 100 / 12) * (1 + pct / 100 / 12) ^ k) /
        ((1 + pct / 100 / 12) ^ (years * 12) - 1) := by
    rw [hpay]
    unfold annuity_balance
    exact annuity_step_sub_identity P (pct / 100 / 12) _ _ hden.ne'
  have e2 : annuity_balance P pct years k +
      annuity_balance P pct years k * (pct / 100 / 12) - mortgage_payment P pct years =
      annuity_balance P pct years (k + 1) := by
    rw [hpay]
    unfold annuity_balance
    rw [pow_succ]
    exact annuity_step_next_identity P (pct / 100 / 12) _ _ hden.ne'
  have pos1 : 0 ≤ mortgage_payment P pct years -
      annuity_balance P pct years k * (pct / 100 / 12) := by
    rw [e1]
    exact div_nonneg (mul_nonneg hP.le (mul_nonneg hr.le (pow_nonneg (by linarith) k)))
      hden.le
  have hnn := annuity_balance_nonneg P pct years (k + 1) hP hpct hy hk1
  have pos2 : mortgage_payment P pct years -
      annuity_balance P pct years k * (pct / 100 / 12) ≤ annuity_balance P pct years k := by
    linarith [e2, hnn]
  unfold iter_step
  rw [add_zero, max_eq_right pos1, min_eq_right pos2]
  linarith [e2]

lemma iter_eq_annuity (P pct : ℚ) (years : Nat) (hP : 0 < P) (hpct : 0 < pct)
    (hy : 1 ≤ years) :
    ∀ k, k ≤ years * 12 → iter_balance P pct years 0 k = annuity_balance P pct years k := by
  intro k
  induction k with
  | zero =>
      intro h0
      show (if P ≤ 0 then 0 else P) = _
      rw [if_neg (not_le.mpr hP), annuity_balance_zero P pct years hpct hy]
  | succ k ih =>
      intro hk1
      have hk : k ≤ years * 12 := by omega
      show iter_step (pct / 100 / 12) (mortgage_payment P pct years) 0
          (iter_balance P pct years 0 k) = _
      rw [ih hk]
      exact annuity_step P pct years k hP hpct hy hk1

lemma balance_at_eq_iter_balance (P pct : ℚ) (years : Nat) (hpct : 0 ≤ pct)
    (hy : 1 ≤ years) (k : Nat) :
    balance_at P pct years k = iter_balance P pct years 0 k := by
  by_cases hP : P ≤ 0
  · rw [balance_at_nonpos P pct years k hP, iter_balance_nonpos P pct 0 years hP le_rfl k]
  push_neg at hP
  rcases eq_or_lt_of_le hpct with h0 | hpos
  · cases h0
    by_cases hk : k ≤ years * 12
    · rw [balance_at_linear P years k hP hy hk, iter_balance_linear P years hP hy k hk]
    · push_neg at hk
      rw [balance_at_of_term_lt P 0 years k hk]
      have hterm : iter_balance P 0 years 0 (years * 12) = 0 := by
        rw [iter_balance_linear P years hP hy (years * 12) le_rfl]
        have hn : ((years * 12 : Nat) : ℚ) ≠ 0 := by
          exact_mod_cast (by omega : years * 12 ≠ 0)
        rw [div_self hn]
        ring
      have habs := iter_balance_absorb P 0 0 years (years * 12) le_rfl hterm (k - years * 12)
      rw [show years * 12 + (k - years * 12) = k from by omega] at habs
      rw [habs]
  · by_cases hk : k ≤ years * 12
    · rw [balance_at_eq_annuity P pct years k hP hpos hy hk,
        iter_eq_annuity P pct years hP hpos hy k hk]
    · push_neg at hk
      rw [balance_at_of_term_lt P pct years k hk]
      have hterm : iter_balance P pct years 0 (years * 12) = 0 := by
        rw [iter_eq_annuity P pct years hP hpos hy (years * 12) le_rfl,
          annuity_balance_term]
      have habs := iter_balance_absorb P pct 0 years (years * 12) le_rfl hterm
        (k - years * 12)
      rw [show years * 12 + (k - years * 12) = k from by omega] at habs
      rw [habs]

/-- Claim C2: for a loan with extra principal 0, nonnegative rate and a
positive term, the closed-form balance series of src/app.py agrees exactly, at
every period index, with the iterative recurrence of the spec (exact
arithmetic, so within any tolerance). -/
theorem c2_closed_form_eq_iterative (P pct : ℚ) (years horizon : Nat)
    (hpct : 0 ≤ pct) (hy : 1 ≤ years) :
    mortgage_balance_series P pct years horizon =
      (List.range (horizon + 1)).map (iter_balance P pct years 0) := by
  unfold mortgage_balance_series
  rw [show (fun k => balance_at P pct years k) = iter_balance P pct years 0 from
    funext fun k => balance_at_eq_iter_balance P pct years hpct hy k]

/-- Witness for C2 at a concrete loan with positive rate. -/
theorem c2_closed_form_eq_iterative_witness :
    (0 : ℚ) ≤ 120 ∧ 1 ≤ 1 ∧
      mortgage_balance_series 240 120 1 2 = (List.range 3).map (iter_balance 240 120 1 0) := by
  exact ⟨by norm_num, le_refl 1,
    c2_closed_form_eq_iterative 240 120 1 2 (by norm_num) (le_refl 1)⟩

/-! Schedule invariants. -/

lemma balance_at_zero_idx (P pct : ℚ) (years : Nat) (hpct : 0 ≤ pct) (hy : 1 ≤ years) :
    balance_at P pct years 0 = if P ≤ 0 then 0 else P := by
  by_cases hP : P ≤ 0
  · rw [balance_at_nonpos P pct years 0 hP, if_pos hP]
  · push_neg at hP
    rw [if_neg (not_le.mpr hP)]
    rcases eq_or_lt_of_le hpct with h0 | hpos
    · cases h0
      rw [balance_at_linear P years 0 hP hy (by omega)]
      simp
    · rw [balance_at_eq_annuity P pct years 0 hP hpos hy (by omega),
        annuity_balance_zero P pct years hpos hy]

lemma balance_at_nonneg (P pct : ℚ) (years : Nat) (hpct : 0 ≤ pct) (hy : 1 ≤ years)
    (k : Nat) : 0 ≤ balance_at P pct years k := by
  by_cases hP : P ≤ 0
  · rw [balance_at_nonpos P pct years k hP]
  push_neg at hP
  by_cases hk : k ≤ years * 12
  · rcases eq_or_lt_of_le hpct with h0 | hpos
    · cases h0
      rw [balance_at_linear P years k hP hy hk]
      have hn : (0 : ℚ) < ((years * 12 : Nat) : ℚ) := by
        exact_mod_cast (by omega : 0 < years * 12)
      have hkn : (k : ℚ) ≤ ((years * 12 : Nat) : ℚ) := by exact_mod_cast hk
      have h1 : (k : ℚ) / ((years * 12 : Nat) : ℚ) ≤ 1 := by
        rw [div_le_one hn]
        exact hkn
      nlinarith
    · rw [balance_at_eq_annuity P pct years k hP hpos hy hk]
      exact annuity_balance_nonneg P pct years k hP hpos hy hk
  · push_neg at hk
    rw [balance_at_of_term_lt P pct years k hk]

lemma balance_at_antitone (P pct : ℚ) (years : Nat) (hpct : 0 ≤ pct) (hy : 1 ≤ years)
    (k : Nat) : balance_at P pct years (k + 1) ≤ balance_at P pct years k := by
  by_cases hP : P ≤ 0
  · rw [balance_at_nonpos P pct years (k + 1) hP, balance_at_nonpos P pct years k hP]
  push_neg at hP
  by_cases hk1 : k + 1 ≤ years * 12
  · have hk : k ≤ years * 12 := by omega
    rcases eq_or_lt_of_le hpct with h0 | hpos
    · cases h0
      rw [balance_at_linear P years (k + 1) hP hy hk1, balance_at_linear P years k hP hy hk]
      have hn : (0 : ℚ) < ((years * 12 : Nat) : ℚ) := by
        exact_mod_cast (by omega : 0 < years * 12)
      have hdiv : (k : ℚ) / ((years * 12 : Nat) : ℚ) ≤
          (((k + 1 : Nat)) : ℚ) / ((years * 12 : Nat) : ℚ) := by
        gcongr
        push_cast
        linarith
      nlinarith [mul_nonneg hP.le (sub_nonneg.mpr hdiv)]
    · rw [balance_at_eq_annuity P pct years (k + 1) hP hpos hy hk1,
        balance_at_eq_annuity P pct years k hP hpos hy hk]
      exact (annuity_balance_lt P pct years k (k + 1) hP hpos hy (by omega)).le
  · push_neg at hk1
    rw [balance_at_of_term_lt P pct years (k + 1) hk1]
    exact balance_at_nonneg P pct years hpct hy k

lemma balance_at_absorbing (P pct : ℚ) (years : Nat) (hpct : 0 ≤ pct) (hy : 1 ≤ years)
    (k : Nat) (hz : balance_at P pct years k = 0) : balance_at P pct years (k + 1) = 0 := by
  by_cases hk1 : years * 12 < k + 1
  · exact balance_at_of_term_lt P pct years (k + 1) hk1
  · push_neg at hk1
    by_cases hP : P ≤ 0
    · exact balance_at_nonpos P pct years (k + 1) hP
    push_neg at hP
    exfalso
    rcases eq_or_lt_of_le hpct with h0 | hpos
    · cases h0
      rw [balance_at_linear P years k hP hy (by omega)] at hz
      have hn : (0 : ℚ) < ((years * 12 : Nat) : ℚ) := by
        exact_mod_cast (by omega : 0 < years * 12)
      have hklt : (k : ℚ) < ((years * 12 : Nat) : ℚ) := by
        exact_mod_cast (by omega : k < years * 12)
      have hlt1 : (k : ℚ) / ((years * 12 : Nat) : ℚ) < 1 := by
        rw [div_lt_one hn]
        exact hklt
      nlinarith
    · rw [balance_at_eq_annuity P pct years k hP hpos hy (by omega)] at hz
      have := annuity_balance_pos P pct years k hP hpos hy (by omega)
      linarith

/-- Claim C5: for boundary-valid loan terms the schedule has length
horizon + 1, starts at the principal (or 0 for nonpositive principal), stays
nonnegative, is non-increasing, and once it reaches 0 it stays 0; list
entries agree with the per-index balance. -/
theorem c5_schedule_invariants (P pct : ℚ) (years horizon : Nat)
    (hpct : 0 ≤ pct) (hy : 1 ≤ years) :
    (mortgage_balance_series P pct years horizon).length = horizon + 1 ∧
    balance_at P pct years 0 = (if P ≤ 0 then 0 else P) ∧
    (∀ k, 0 ≤ balance_at P pct years k) ∧
    (∀ k, balance_at P pct years (k + 1) ≤ balance_at P pct years k) ∧
    (∀ k, balance_at P pct years k = 0 → balance_at P pct years (k + 1) = 0) ∧
    (∀ k, k ≤ horizon → (mortgage_balance_series P pct years horizon)[k]? =
      some (balance_at P pct years k)) := by
  refine ⟨?_, balance_at_zero_idx P pct years hpct hy,
    balance_at_nonneg P pct years hpct hy,
    balance_at_antitone P pct years hpct hy,
    balance_at_absorbing P pct years hpct hy, ?_⟩
  · simp [mortgage_balance_series]
  · intro k hk
    simp only [mortgage_balance_series, List.getElem?_map]
    rw [List.getElem?_range (show k < horizon + 1 from by omega)]
    rfl

/-- Witness for C5 at a concrete zero-rate loan. -/
theorem c5_schedule_invariants_witness :
    (mortgage_balance_series 100 0 1 2).length = 3 ∧
      balance_at 100 0 1 0 = (if (100 : ℚ) ≤ 0 then 0 else 100) ∧
      0 ≤ balance_at 100 0 1 1 ∧
      balance_at 100 0 1 2 ≤ balance_at 100 0 1 1 := by
  have h := c5_schedule_invariants 100 0 1 2 (le_refl 0) (le_refl 1)
  exact ⟨h.1, h.2.1, h.2.2.1 1, h.2.2.2.1 1⟩

/-- Claim C6: with positive principal and rate and a horizon covering the
native term, the schedule is paid off exactly at period termYears*12 and is
strictly decreasing at every earlier period. -/
theorem c6_payoff_at_native_term (P pct : ℚ) (years horizon : Nat)
    (hP : 0 < P) (hpct : 0 < pct) (hy : 1 ≤ years) (hh : years * 12 ≤ horizon) :
    (mortgage_balance_series P pct years horizon)[years * 12]? = some 0 ∧
    ∀ k < years * 12, balance_at P pct years (k + 1) < balance_at P pct years k := by
  constructor
  · have hterm : balance_at P pct years (years * 12) = 0 := by
      rw [balance_at_eq_annuity P pct years (years * 12) hP hpct hy le_rfl,
        annuity_balance_term]
    simp only [mortgage_balance_series, List.getElem?_map]
    rw [List.getElem?_range (show years * 12 < horizon + 1 from by omega)]
    rw [Option.map_some', hterm]
  · intro k hk
    rw [balance_at_eq_annuity P pct years (k + 1) hP hpct hy (by omega),
      balance_at_eq_annuity P pct years k hP hpct hy (by omega)]
    exact annuity_balance_lt P pct years k (k + 1) hP hpct hy (by omega)

/-- Witness for C6 at a concrete one-year loan. -/
theorem c6_payoff_at_native_term_witness :
    (mortgage_balance_series 100 120 1 12)[12]? = some 0 ∧
      balance_at 100 120 1 1 < balance_at 100 120 1 0 := by
  have h := c6_payoff_at_native_term 100 120 1 12 (by norm_num) (by norm_num)
    (le_refl 1) (by norm_num)
  exact ⟨h.1, h.2 0 (by norm_num)⟩

/-- Claim C4 as amended: the scenario 1 debt trajectory is the plain
amortization schedule of the loan, with no extra-principal acceleration:
it equals the iterative schedule with extra = 0 and is unchanged by the
monthly rent input. -/
theorem c4_amended_no_extra_principal (p : Params) (rent : ℚ)
    (hpct : 0 ≤ p.mortgage_rate_pct) (hy : 1 ≤ p.mortgage_years) :
    debt_series_s1 { p with monthly_rent := rent } = debt_series_s1 p ∧
    debt_series_s1 p = (List.range (months p + 1)).map
      (iter_balance p.mortgage_amount p.mortgage_rate_pct p.mortgage_years 0) := by
  refine ⟨rfl, ?_⟩
  show (List.range (months p + 1)).map
      (fun k => balance_at p.mortgage_amount p.mortgage_rate_pct p.mortgage_years k) = _
  rw [show (fun k => balance_at p.mortgage_amount p.mortgage_rate_pct p.mortgage_years k) =
      iter_balance p.mortgage_amount p.mortgage_rate_pct p.mortgage_years 0 from
    funext fun k =>
      balance_at_eq_iter_balance p.mortgage_amount p.mortgage_rate_pct p.mortgage_years
        hpct hy k]

/-- Witness for the amended C4 at a concrete parameter set. -/
theorem c4_amended_no_extra_principal_witness :
    debt_series_s1 { c4_cex_params with monthly_rent := 500 } = debt_series_s1 c4_cex_params := by
  exact (c4_amended_no_extra_principal c4_cex_params 500 le_rfl (le_refl 1)).1

end HomeCalc
